import Mathlib

/-!
A shallow embedding of `src/app/agent/tools/calendar_tools.py` from the
booking-agent prototype, together with theorems checking the natural-language
specification against it.

Modelling conventions:
* UTC instants and durations are integers (minutes).  A timezone is modelled
  as a fixed UTC offset in minutes (the pytz objects the code builds; DST
  transitions are outside the model).  A timezone-aware local time with
  offset `o` showing wall-clock `w` denotes the instant `w - o`.
* `datetime.fromisoformat` (after stripping a trailing Z) and `pytz.timezone`
  are
  Python-stdlib calls, not repository code; their outcomes enter the model as
  oracle inputs (`Option DT` / `Option Int`): `none` means the call raised
  (`ValueError` / `UnknownTimeZoneError`), matching how the surrounding
  repository code observes them.
* The Mongo `events` collection is a list of records in insertion order;
  `find_one` is `List.find?`, `update_one` updates the first match,
  `delete_one` is `List.eraseP`.
* External calls (Google Calendar insert/get/update/delete) enter as oracle
  outcome parameters; an uncaught Python exception is the `PyResult.exn`
  constructor of a result.
-/

namespace BookingAgent

/-- An event record as inserted into the `events` collection
(`_internal_create_event`, the `event_to_db` dict). -/
structure EventRecord where
  id : Nat
  google_event_id : Option String
  owner_user_id : String
  title : String
  start_time_utc : Int
  end_time_utc : Int
  original_timezone : String
  attendees : List String
  status : String
  created_at : Int
deriving Repr, DecidableEq

/-- The `events` collection, in insertion order. -/
abbrev Ledger := List EventRecord

/-- Outcome of `datetime.fromisoformat` on the Z-stripped string: either a naive
wall-clock time or an already timezone-aware instant. -/
inductive DT where
  | naive (wall : Int)
  | aware (instant : Int)
deriving Repr, DecidableEq

/-- Semantics of `user_tz.localize` on naive values followed by `astimezone(pytz.UTC)`:
a naive wall-clock in a zone of offset `o` denotes instant `wall - o`;
an aware value is converted as-is. -/
def toUtc (o : Int) : DT → Int
  | .naive w => w - o
  | .aware i => i

/-- Result of a Python call: normal return, or an uncaught exception
propagating to the caller. -/
inductive PyResult (α : Type) where
  | ret (a : α)
  | exn (e : String)
deriving Repr, DecidableEq

/-- The configuration values read from `settings`. -/
structure Settings where
  MEETING_BUFFER_MINUTES : Int
  COMPANY_TZ_OFFSET : Int
  COMPANY_WORKING_START_HOUR : Int
  COMPANY_WORKING_END_HOUR : Int
  SLOT_CHECK_DURATION_MINUTES : Int
deriving Repr, DecidableEq

/-- The conflict predicate of the spec (§4.2): `candidateStart < existingEnd +
buffer AND candidateEnd > existingStart - buffer`. -/
def specConflicts (cS cE buf eS eE : Int) : Prop :=
  cS < eE + buf ∧ cE > eS - buf

instance (cS cE buf eS eE : Int) : Decidable (specConflicts cS cE buf eS eE) := by
  unfold specConflicts; infer_instance

/-- The Mongo filter of `confirm_and_book_event` (lines 103-106):
`start_time_utc < end_utc + buffer` and `end_time_utc > start_utc - buffer`. -/
def bookingConflictPred (start_utc end_utc buf : Int) (e : EventRecord) : Bool :=
  decide (e.start_time_utc < end_utc + buf) && decide (e.end_time_utc > start_utc - buf)

/-- The Mongo filter of `update_event` (lines 287-291): same interval test,
additionally requiring `google_event_id != event_id`. -/
def updateConflictPred (event_id : String) (new_start_utc new_end_utc buf : Int)
    (e : EventRecord) : Bool :=
  !(e.google_event_id == some event_id) &&
    decide (e.start_time_utc < new_end_utc + buf) &&
    decide (e.end_time_utc > new_start_utc - buf)

/-- A busy block of `find_available_slots` (lines 364-370): the stored
interval expanded outward by the buffer. -/
structure BusyBlock where
  bstart : Int
  bend : Int
deriving Repr, DecidableEq

/-- Lines 364-370: `{"start": e.start - buffer, "end": e.end + buffer}`. -/
def busyBlockOf (buf : Int) (e : EventRecord) : BusyBlock :=
  ⟨e.start_time_utc - buf, e.end_time_utc + buf⟩

/-- The overlap test of line 382: `slot_start < block.end and slot_end >
block.start`. -/
def slotBusyOverlap (slot_start_utc slot_end_utc : Int) (b : BusyBlock) : Bool :=
  decide (slot_start_utc < b.bend) && decide (slot_end_utc > b.bstart)

theorem conflictPred_iff (cS cE buf : Int) (gid : String) (e : EventRecord) :
    (bookingConflictPred cS cE buf e = true ↔
      specConflicts cS cE buf e.start_time_utc e.end_time_utc) ∧
    (updateConflictPred gid cS cE buf e = true ↔
      (¬ e.google_event_id = some gid ∧
        specConflicts cS cE buf e.start_time_utc e.end_time_utc)) ∧
    (slotBusyOverlap cS cE (busyBlockOf buf e) = true ↔
      specConflicts cS cE buf e.start_time_utc e.end_time_utc) := by
  refine ⟨?_, ?_, ?_⟩
  · simp only [bookingConflictPred, Bool.and_eq_true, decide_eq_true_iff, specConflicts]
    omega
  · simp only [updateConflictPred, Bool.and_eq_true, decide_eq_true_iff,
      Bool.not_eq_true', beq_eq_false_iff_ne, ne_eq, specConflicts, and_assoc]
    exact and_congr_right fun _ => by omega
  · simp only [slotBusyOverlap, busyBlockOf, Bool.and_eq_true, decide_eq_true_iff,
      specConflicts]

/-- C3: the conflict predicate.  All three call sites — booking
(`confirm_and_book_event`), rescheduling (`update_event`, modulo the own-id
exclusion), and slot search (`find_available_slots` busy blocks) — decide
exactly the predicate of the spec `candidateStart < existingEnd + buffer ∧
candidateEnd > existingStart - buffer`, with only the existing interval
expanded by the buffer. -/
theorem conflict_predicate_shared (cS cE buf : Int) (gid : String) (e : EventRecord) :
    (bookingConflictPred cS cE buf e = true ↔
      specConflicts cS cE buf e.start_time_utc e.end_time_utc) ∧
    (updateConflictPred gid cS cE buf e = true ↔
      (¬ e.google_event_id = some gid ∧
        specConflicts cS cE buf e.start_time_utc e.end_time_utc)) ∧
    (slotBusyOverlap cS cE (busyBlockOf buf e) = true ↔
      specConflicts cS cE buf e.start_time_utc e.end_time_utc) :=
  conflictPred_iff cS cE buf gid e

/-- A Mongo `$set` document over the mutable fields the code ever touches. -/
structure SetPayload where
  title : Option String
  start_time_utc : Option Int
  end_time_utc : Option Int
  google_event_id : Option (Option String)
  status : Option String
deriving Repr, DecidableEq

/-- Apply a `$set` document to one record. -/
def applySet (p : SetPayload) (r : EventRecord) : EventRecord :=
  { r with
    title := p.title.getD r.title
    start_time_utc := p.start_time_utc.getD r.start_time_utc
    end_time_utc := p.end_time_utc.getD r.end_time_utc
    google_event_id := p.google_event_id.getD r.google_event_id
    status := p.status.getD r.status }

/-- Mongo `update_one(filter, {"$set": payload})`: update the first record
matching the filter. -/
def updateFirst (pred : EventRecord → Bool) (p : SetPayload) : Ledger → Ledger
  | [] => []
  | r :: rest => if pred r then applySet p r :: rest else r :: updateFirst pred p rest

/-- A fresh `_id` for `insert_one`: one more than the largest id in use. -/
def freshId (L : Ledger) : Nat :=
  L.foldr (fun r m => max r.id m) 0 + 1

/-- The filter `{"google_event_id": event_id}` used by delete/update/find. -/
def gidPred (event_id : String) (r : EventRecord) : Bool :=
  r.google_event_id == some event_id

theorem freshId_not_mem (L : Ledger) : ∀ r ∈ L, r.id ≠ freshId L := by
  have key : ∀ (l : Ledger), ∀ r ∈ l, r.id ≤ l.foldr (fun r m => max r.id m) 0 := by
    intro l
    induction l with
    | nil => intro r h; cases h
    | cons a t ih =>
      intro r h
      rcases List.mem_cons.mp h with h | h
      · subst h; exact Nat.le_max_left r.id _
      · exact le_trans (ih r h) (Nat.le_max_right a.id _)
  intro r h
  have := key L r h
  unfold freshId
  omega

theorem eraseP_append_of_forall_not {p : EventRecord → Bool} :
    ∀ (l₁ l₂ : Ledger), (∀ x ∈ l₁, p x = false) → (l₁ ++ l₂).eraseP p = l₁ ++ l₂.eraseP p := by
  intro l₁ l₂ h
  induction l₁ with
  | nil => simp
  | cons a t ih =>
    have ha : p a = false := h a (by simp)
    simp only [List.cons_append, List.eraseP_cons, ha, cond_false]
    rw [ih fun x hx => h x (by simp [hx])]

/-- Outcome of the Google Calendar `events().insert(...).execute()` call. -/
inductive SyncResult where
  | success (externalId : String) (link : String)
  | failure (reason : String)
deriving Repr, DecidableEq

def raceLostMsg : String :=
  "Error: Apologies, but that exact time slot was booked while we were finalizing. Please try another time."

def createdMsg (link : String) : String :=
  "Event created successfully! Link: " ++ link

def syncFailCreateMsg (reason : String) : String :=
  "Error: Could not create event on Google Calendar after reserving the slot. Reason: " ++ reason

/-- Embedding of `_internal_create_event` (lines 19-79).  Oracle inputs: `startP`/`endP`
are the `fromisoformat` outcomes for the two time strings, `userTzP` the
`pytz.timezone` outcome for the stored user timezone, `insertDup` whether
`insert_one` raises `DuplicateKeyError`, `sync` the Google insert outcome.
Returns the Python result (normal string or uncaught exception) together with
the resulting `events` collection. -/
def internal_create_event (L : Ledger) (summary : String) (startP endP : Option DT)
    (userTzP : Option Int) (userId : String) (userTzName : String) (nowTs : Int)
    (insertDup : Bool) (sync : SyncResult) : PyResult String × Ledger :=
  match userTzP with
  | none => (.exn "UnknownTimeZoneError", L)
  | some o =>
    match startP with
    | none => (.exn "ValueError", L)
    | some ds =>
      match endP with
      | none => (.exn "ValueError", L)
      | some de =>
        let start_utc := toUtc o ds
        let end_utc := toUtc o de
        if insertDup then (.ret raceLostMsg, L)
        else
          let i := freshId L
          let L1 := L ++ [⟨i, none, userId, summary, start_utc, end_utc, userTzName,
            [], "pending", nowTs⟩]
          match sync with
          | .success gid link =>
            (.ret (createdMsg link),
              updateFirst (fun r => r.id == i)
                ⟨none, none, none, some (some gid), some "confirmed"⟩ L1)
          | .failure reason =>
            (.ret (syncFailCreateMsg reason), L1.eraseP (fun r => r.id == i))

def slotUnavailableMsg : String :=
  "Error: Apologies, but that time slot is no longer available. It may have been booked just now or is too close to another scheduled meeting. Please find another available slot."

def unexpectedBookingMsg : String :=
  "An unexpected error occurred during the final booking step."

/-- Embedding of `confirm_and_book_event` (lines 81-113): conflict check against the whole
collection, then the internal create flow; the enclosing `try` turns any
uncaught exception into an error string. -/
def confirm_and_book_event (L : Ledger) (summary : String) (startP endP : Option DT)
    (userTzP : Option Int) (userId : String) (userTzName : String) (nowTs : Int)
    (buffer : Int) (insertDup : Bool) (sync : SyncResult) : String × Ledger :=
  match userTzP with
  | none => (unexpectedBookingMsg, L)
  | some o =>
    match startP with
    | none => (unexpectedBookingMsg, L)
    | some ds =>
      match endP with
      | none => (unexpectedBookingMsg, L)
      | some de =>
        let start_utc := toUtc o ds
        let end_utc := toUtc o de
        match L.find? (bookingConflictPred start_utc end_utc buffer) with
        | some _ => (slotUnavailableMsg, L)
        | none =>
          match internal_create_event L summary startP endP userTzP userId userTzName
            nowTs insertDup sync with
          | (.ret s, L2) => (s, L2)
          | (.exn _, L2) => (unexpectedBookingMsg, L2)

/-- C1: create flow compensation.  If the reservation insert succeeds and the
external sync fails, `_internal_create_event` deletes the reserved record
again: the resulting collection is exactly the pre-flow collection, and in
particular no record with the attempted title and UTC time range remains if
none existed before the flow. -/
theorem create_sync_failure_no_orphan (L : Ledger) (summary : String) (ds de : DT)
    (o : Int) (userId userTzName : String) (nowTs : Int) (reason : String)
    (startP endP : Option DT) (userTzP : Option Int)
    (hs : startP = some ds) (he : endP = some de) (ho : userTzP = some o) :
    internal_create_event L summary startP endP userTzP userId userTzName nowTs
        false (.failure reason)
      = (.ret (syncFailCreateMsg reason), L) ∧
    ((∀ r ∈ L, ¬(r.title = summary ∧ r.start_time_utc = toUtc o ds ∧
        r.end_time_utc = toUtc o de)) →
      ∀ r ∈ (internal_create_event L summary startP endP userTzP userId userTzName nowTs
          false (.failure reason)).2,
        ¬(r.title = summary ∧ r.start_time_utc = toUtc o ds ∧
          r.end_time_utc = toUtc o de)) := by
  subst hs he ho
  have hL : internal_create_event L summary (some ds) (some de) (some o) userId
      userTzName nowTs false (.failure reason)
      = (.ret (syncFailCreateMsg reason), L) := by
    simp only [internal_create_event]
    rw [eraseP_append_of_forall_not L _ ?_]
    · simp
    · intro x hx
      simpa using freshId_not_mem L x hx
  refine ⟨hL, ?_⟩
  intro hnone r hr
  rw [hL] at hr
  exact hnone r hr

/-- Concrete instance of `create_sync_failure_no_orphan`. -/
theorem create_sync_failure_no_orphan_witness :
    internal_create_event [] "Standup" (some (.naive 600)) (some (.naive 630))
        (some 0) "u1" "UTC" 0 false (.failure "boom")
      = (.ret (syncFailCreateMsg "boom"), []) ∧
    ((∀ r ∈ ([] : Ledger), ¬(r.title = "Standup" ∧ r.start_time_utc = toUtc 0 (.naive 600) ∧
        r.end_time_utc = toUtc 0 (.naive 630))) →
      ∀ r ∈ (internal_create_event [] "Standup" (some (.naive 600)) (some (.naive 630))
          (some 0) "u1" "UTC" 0 false (.failure "boom")).2,
        ¬(r.title = "Standup" ∧ r.start_time_utc = toUtc 0 (.naive 600) ∧
          r.end_time_utc = toUtc 0 (.naive 630))) :=
  create_sync_failure_no_orphan [] "Standup" (.naive 600) (.naive 630) 0 "u1" "UTC" 0
    "boom" _ _ _ rfl rfl rfl

/-- Outcome of the Google get+update pair in `update_event` (lines 307-317);
success carries the start time echoed by the provider. -/
inductive UpdSync where
  | success (echoedStart : String)
  | failure (reason : String)
deriving Repr, DecidableEq

def updNotFoundMsg (event_id : String) : String :=
  "Error: Event with ID " ++ event_id ++ " not found."

def updPermDeniedMsg : String :=
  "Error: Permission Denied. You do not own this event."

def noChangeMsg : String :=
  "Error: You must provide a new start time or a new summary to update the event."

def updSlotUnavailMsg : String :=
  "Error: The requested new time slot is not available as it conflicts with another scheduled meeting. Please try another time."

def updDupMsg : String :=
  "Error: The requested new time slot is already booked. Please try another time."

def updSuccessMsg (echoedStart : String) : String :=
  "Event updated successfully. It is now scheduled for " ++ echoedStart ++ "."

def updSyncFailMsg (reason : String) : String :=
  "Error: Failed to update Google Calendar after reserving the slot. All changes have been reverted. Reason: " ++ reason

/-- Lines 299-330 of `update_event`: commit the payload locally with
`update_one`, push to Google, and on failure revert the first matching record
to the original start/end/title taken from `event_doc`. -/
def update_event_commit (L : Ledger) (event_id : String) (event_doc : EventRecord)
    (payload : SetPayload) (updDup : Bool) (sync : UpdSync) : PyResult String × Ledger :=
  if updDup then (.ret updDupMsg, L)
  else
    let L1 := updateFirst (gidPred event_id) payload L
    match sync with
    | .success echoed => (.ret (updSuccessMsg echoed), L1)
    | .failure reason =>
      (.ret (updSyncFailMsg reason),
        updateFirst (gidPred event_id)
          ⟨some event_doc.title, some event_doc.start_time_utc,
            some event_doc.end_time_utc, none, none⟩ L1)

/-- Embedding of `update_event` (lines 246-330).  `new_start_p = none` means the argument
was not supplied; `some none` that it was supplied but `fromisoformat`
raises; `some (some ds)` that it parses to `ds`.  The parsing section
(lines 273-283) is not inside any `try`, so its exceptions propagate
(`PyResult.exn`). -/
def update_event (L : Ledger) (event_id userId : String) (userTzP : Option Int)
    (new_start_p : Option (Option DT)) (new_summary : Option String)
    (buffer : Int) (updDup : Bool) (sync : UpdSync) : PyResult String × Ledger :=
  match L.find? (gidPred event_id) with
  | none => (.ret (updNotFoundMsg event_id), L)
  | some event_doc =>
    if event_doc.owner_user_id ≠ userId then (.ret updPermDeniedMsg, L)
    else if new_start_p = none ∧ new_summary = none then (.ret noChangeMsg, L)
    else
      match new_start_p with
      | none =>
        update_event_commit L event_id event_doc ⟨new_summary, none, none, none, none⟩
          updDup sync
      | some parsed =>
        match userTzP with
        | none => (.exn "UnknownTimeZoneError", L)
        | some o =>
          match parsed with
          | none => (.exn "ValueError", L)
          | some ds =>
            let duration := event_doc.end_time_utc - event_doc.start_time_utc
            let new_start_utc := toUtc o ds
            let new_end_utc := new_start_utc + duration
            match L.find? (updateConflictPred event_id new_start_utc new_end_utc buffer) with
            | some _ => (.ret updSlotUnavailMsg, L)
            | none =>
              update_event_commit L event_id event_doc
                ⟨new_summary, some new_start_utc, some new_end_utc, none, none⟩
                updDup sync

theorem applySet_keeps_gid (p : SetPayload) (r : EventRecord)
    (hp : p.google_event_id = none) :
    (applySet p r).google_event_id = r.google_event_id := by
  simp [applySet, hp]

theorem updateFirst_restore (event_id : String) (p : SetPayload)
    (hp1 : p.google_event_id = none) (hp2 : p.status = none) :
    ∀ (L : Ledger) (doc : EventRecord),
      L.find? (gidPred event_id) = some doc →
      updateFirst (gidPred event_id)
        ⟨some doc.title, some doc.start_time_utc, some doc.end_time_utc, none, none⟩
        (updateFirst (gidPred event_id) p L) = L := by
  intro L
  induction L with
  | nil => intro doc h; simp at h
  | cons r rest ih =>
    intro doc h
    by_cases hr : gidPred event_id r
    · rw [List.find?_cons_of_pos _ hr] at h
      injection h with h
      subst h
      simp only [updateFirst, if_pos hr]
      have hg : gidPred event_id (applySet p r) = true := by
        simp only [gidPred] at hr ⊢
        rw [applySet_keeps_gid p r hp1]
        exact hr
      simp only [updateFirst, if_pos hg]
      congr 1
      cases r
      simp [applySet, hp1, hp2]
    · rw [List.find?_cons_of_neg _ hr] at h
      simp only [updateFirst, if_neg hr]
      rw [ih doc h]

theorem update_event_commit_failure_snd (L : Ledger) (event_id : String)
    (doc : EventRecord) (p : SetPayload) (updDup : Bool) (reason : String)
    (hfind : L.find? (gidPred event_id) = some doc)
    (hp1 : p.google_event_id = none) (hp2 : p.status = none) :
    (update_event_commit L event_id doc p updDup (.failure reason)).2 = L := by
  unfold update_event_commit
  split
  · rfl
  · simp only
    exact updateFirst_restore event_id p hp1 hp2 L doc hfind

/-- C2: update flow rollback.  Whenever the Google sync step fails, the
resulting `events` collection is exactly the pre-call collection: in
particular the `start_time_utc` of the record, `end_time_utc` and `title` equal
their pre-update values (the optimistic `update_one` of line 300 is undone by
the compensating `update_one` of lines 322-329), and every early-failure path
leaves the collection untouched as well. -/
theorem update_sync_failure_reverts (L : Ledger) (event_id userId : String)
    (userTzP : Option Int) (new_start_p : Option (Option DT))
    (new_summary : Option String) (buffer : Int) (updDup : Bool)
    (sync : UpdSync) (reason : String) (hsync : sync = .failure reason) :
    (update_event L event_id userId userTzP new_start_p new_summary buffer updDup
      sync).2 = L := by
  subst hsync
  unfold update_event
  cases hfind : L.find? (gidPred event_id) with
  | none => rfl
  | some doc =>
    simp only
    split
    · rfl
    · split
      · rfl
      · cases new_start_p with
        | none =>
          exact update_event_commit_failure_snd L event_id doc _ updDup reason hfind
            rfl rfl
        | some parsed =>
          cases userTzP with
          | none => rfl
          | some o =>
            cases parsed with
            | none => rfl
            | some ds =>
              simp only
              cases hconf : L.find? (updateConflictPred event_id (toUtc o ds)
                  (toUtc o ds + (doc.end_time_utc - doc.start_time_utc)) buffer) with
              | some c => rfl
              | none =>
                exact update_event_commit_failure_snd L event_id doc _ updDup reason
                  hfind rfl rfl

/-- Concrete instance of `update_sync_failure_reverts`. -/
theorem update_sync_failure_reverts_witness :
    (update_event [⟨1, some "g1", "u1", "Standup", 100, 160, "UTC", [], "confirmed", 0⟩]
      "g1" "u1" (some 0) (some (some (.naive 300))) none 15 false
      (.failure "boom")).2
      = [⟨1, some "g1", "u1", "Standup", 100, 160, "UTC", [], "confirmed", 0⟩] :=
  update_sync_failure_reverts _ "g1" "u1" (some 0) (some (some (.naive 300))) none 15
    false _ "boom" rfl

theorem update_event_conflict_helper (L : Ledger) (event_id userId : String)
    (o : Int) (ds : DT) (new_summary : Option String) (buffer : Int)
    (updDup : Bool) (sync : UpdSync) (doc : EventRecord)
    (hfind : L.find? (gidPred event_id) = some doc)
    (hown : doc.owner_user_id = userId) (r : EventRecord) (hr : r ∈ L)
    (hgid : ¬ r.google_event_id = some event_id)
    (hconf : specConflicts (toUtc o ds)
      (toUtc o ds + (doc.end_time_utc - doc.start_time_utc)) buffer
      r.start_time_utc r.end_time_utc) :
    update_event L event_id userId (some o) (some (some ds)) new_summary buffer
      updDup sync = (.ret updSlotUnavailMsg, L) := by
  have hfound : L.find? (updateConflictPred event_id (toUtc o ds)
      (toUtc o ds + (doc.end_time_utc - doc.start_time_utc)) buffer) ≠ none := by
    intro hnone
    exact absurd
      (((conflictPred_iff _ _ _ _ r).2.1).mpr ⟨hgid, hconf⟩)
      (by simpa using List.find?_eq_none.mp hnone r hr)
  simp only [update_event, hfind]
  rw [if_neg (by simp [hown])]
  rw [if_neg (by simp)]
  cases hc : L.find? (updateConflictPred event_id (toUtc o ds)
      (toUtc o ds + (doc.end_time_utc - doc.start_time_utc)) buffer) with
  | none => exact absurd hc hfound
  | some c => simp [hc]

theorem update_event_no_conflict_helper (L : Ledger) (event_id userId : String)
    (o : Int) (ds : DT) (new_summary : Option String) (buffer : Int)
    (updDup : Bool) (sync : UpdSync) (doc : EventRecord)
    (hfind : L.find? (gidPred event_id) = some doc)
    (hown : doc.owner_user_id = userId)
    (hnoconf : ∀ r ∈ L, ¬ r.google_event_id = some event_id →
      ¬ specConflicts (toUtc o ds)
        (toUtc o ds + (doc.end_time_utc - doc.start_time_utc)) buffer
        r.start_time_utc r.end_time_utc) :
    update_event L event_id userId (some o) (some (some ds)) new_summary buffer
      updDup sync
      = update_event_commit L event_id doc
          ⟨new_summary, some (toUtc o ds),
            some (toUtc o ds + (doc.end_time_utc - doc.start_time_utc)),
            none, none⟩ updDup sync := by
  have hnone : L.find? (updateConflictPred event_id (toUtc o ds)
      (toUtc o ds + (doc.end_time_utc - doc.start_time_utc)) buffer) = none := by
    apply List.find?_eq_none.mpr
    intro r hr hp
    rcases ((conflictPred_iff _ _ _ _ r).2.1).mp hp with ⟨hgid, hconf⟩
    exact hnoconf r hr hgid hconf
  simp only [update_event, hfind]
  rw [if_neg (by simp [hown])]
  rw [if_neg (by simp)]
  simp [hnone]

/-- C6: rescheduling.  With the record found and owned and a parsed new start
`ds`, the flow computes the new end as new start plus the original duration
(`original_end_utc - original_start_utc`), runs the conflict check excluding
the own `google_event_id` of the record, and on a conflicting record fails with
the slot-unavailable error leaving the collection unchanged; when no other
record conflicts, the flow proceeds to the local commit with exactly that
derived end time, even if the event overlaps its own old interval. -/
theorem reschedule_duration_and_conflict (L : Ledger) (event_id userId : String)
    (o : Int) (ds : DT) (new_summary : Option String) (buffer : Int)
    (updDup : Bool) (sync : UpdSync) (doc : EventRecord)
    (hfind : L.find? (gidPred event_id) = some doc)
    (hown : doc.owner_user_id = userId) :
    (∀ r ∈ L, ¬ r.google_event_id = some event_id →
      specConflicts (toUtc o ds)
        (toUtc o ds + (doc.end_time_utc - doc.start_time_utc)) buffer
        r.start_time_utc r.end_time_utc →
      update_event L event_id userId (some o) (some (some ds)) new_summary buffer
        updDup sync = (.ret updSlotUnavailMsg, L)) ∧
    ((∀ r ∈ L, ¬ r.google_event_id = some event_id →
      ¬ specConflicts (toUtc o ds)
        (toUtc o ds + (doc.end_time_utc - doc.start_time_utc)) buffer
        r.start_time_utc r.end_time_utc) →
      update_event L event_id userId (some o) (some (some ds)) new_summary buffer
        updDup sync
        = update_event_commit L event_id doc
            ⟨new_summary, some (toUtc o ds),
              some (toUtc o ds + (doc.end_time_utc - doc.start_time_utc)),
              none, none⟩ updDup sync) :=
  ⟨fun r hr hgid hconf =>
    update_event_conflict_helper L event_id userId o ds new_summary buffer updDup
      sync doc hfind hown r hr hgid hconf,
   fun hnoconf =>
    update_event_no_conflict_helper L event_id userId o ds new_summary buffer updDup
      sync doc hfind hown hnoconf⟩

/-- Concrete instance of `reschedule_duration_and_conflict`: the overlapping
record with another id blocks the reschedule. -/
theorem reschedule_duration_and_conflict_witness :
    update_event
        [⟨1, some "g1", "u1", "Standup", 100, 160, "UTC", [], "confirmed", 0⟩,
         ⟨2, some "g2", "u2", "Review", 320, 380, "UTC", [], "confirmed", 0⟩]
        "g1" "u1" (some 0) (some (some (.naive 300))) none 15 false (.success "ok")
      = (.ret updSlotUnavailMsg,
        [⟨1, some "g1", "u1", "Standup", 100, 160, "UTC", [], "confirmed", 0⟩,
         ⟨2, some "g2", "u2", "Review", 320, 380, "UTC", [], "confirmed", 0⟩]) :=
  (reschedule_duration_and_conflict
      [⟨1, some "g1", "u1", "Standup", 100, 160, "UTC", [], "confirmed", 0⟩,
       ⟨2, some "g2", "u2", "Review", 320, 380, "UTC", [], "confirmed", 0⟩]
      "g1" "u1" 0 (.naive 300) none 15 false (.success "ok")
      ⟨1, some "g1", "u1", "Standup", 100, 160, "UTC", [], "confirmed", 0⟩
      rfl rfl).1
    ⟨2, some "g2", "u2", "Review", 320, 380, "UTC", [], "confirmed", 0⟩
    (by decide) (by decide) (by decide)

/-- Outcome of the Google Calendar `events().delete(...).execute()` call:
clean success, an `HttpError` with a status code, or any other exception. -/
inductive DelProvider where
  | ok
  | httpError (status : Nat)
  | otherExn (msg : String)
deriving Repr, DecidableEq

def delNotFoundMsg (event_id : String) : String :=
  "Error: Event with ID " ++ event_id ++ " not found in our records."

def delPermDeniedMsg : String :=
  "Error: Permission Denied. You are not the owner of this event."

def delSuccessMsg (title : String) : String :=
  "Event " ++ title ++ " deleted successfully."

def delAlreadyGoneMsg (title : String) : String :=
  "Event " ++ title ++ " was already deleted from the calendar, and has now been removed from our records."

def delApiErrorMsg : String :=
  "An error occurred with Google Calendar API."

def delUnexpectedMsg : String :=
  "An unexpected error occurred."

/-- Embedding of `delete_event` (lines 171-204): look up by `google_event_id`, check
ownership, call the provider; a 404/410 `HttpError` is treated like success
(local record still deleted), any other provider error leaves the local
record in place. -/
def delete_event (L : Ledger) (event_id userId : String) (provider : DelProvider) :
    String × Ledger :=
  match L.find? (gidPred event_id) with
  | none => (delNotFoundMsg event_id, L)
  | some event_doc =>
    if event_doc.owner_user_id ≠ userId then (delPermDeniedMsg, L)
    else
      match provider with
      | .ok => (delSuccessMsg event_doc.title, L.eraseP (gidPred event_id))
      | .httpError s =>
        if s = 404 ∨ s = 410 then
          (delAlreadyGoneMsg event_doc.title, L.eraseP (gidPred event_id))
        else (delApiErrorMsg, L)
      | .otherExn _ => (delUnexpectedMsg, L)

theorem eraseP_no_match_of_filter_le_one {p : EventRecord → Bool} :
    ∀ (L : Ledger), (L.filter p).length ≤ 1 → ∀ x ∈ L.eraseP p, p x = false := by
  intro L
  induction L with
  | nil => intro _ x hx; simp at hx
  | cons a t ih =>
    intro h x hx
    by_cases pa : p a
    · rw [List.eraseP_cons_of_pos pa] at hx
      rw [List.filter_cons_of_pos pa] at h
      have ht : t.filter p = [] := by
        cases hft : t.filter p with
        | nil => rfl
        | cons b s => rw [hft] at h; simp at h
      by_contra hpx
      have : x ∈ t.filter p := List.mem_filter.mpr ⟨hx, by simpa using hpx⟩
      rw [ht] at this
      simp at this
    · rw [List.eraseP_cons_of_neg pa] at hx
      rw [List.filter_cons_of_neg pa] at h
      rcases List.mem_cons.mp hx with hxa | hxt
      · subst hxa; simpa using pa
      · exact ih h x hxt

/-- C4: delete flow.  With the record found, owned, and its external id
unique in the collection: a provider 404/410 (already gone) is treated as
success and the local record is deleted (no record with that id remains),
while any other `HttpError` status and any other exception are surfaced with
the collection left unchanged. -/
theorem delete_provider_outcomes (L : Ledger) (event_id userId : String)
    (doc : EventRecord)
    (hfind : L.find? (gidPred event_id) = some doc)
    (hown : doc.owner_user_id = userId)
    (huniq : (L.filter (gidPred event_id)).length ≤ 1) :
    (∀ s, s = 404 ∨ s = 410 →
      delete_event L event_id userId (.httpError s)
        = (delAlreadyGoneMsg doc.title, L.eraseP (gidPred event_id)) ∧
      (delete_event L event_id userId (.httpError s)).2.find? (gidPred event_id)
        = none) ∧
    (∀ s, ¬(s = 404 ∨ s = 410) →
      delete_event L event_id userId (.httpError s) = (delApiErrorMsg, L)) ∧
    (∀ m, delete_event L event_id userId (.otherExn m) = (delUnexpectedMsg, L)) := by
  have howner : ¬ doc.owner_user_id ≠ userId := by simp [hown]
  have hhttp : ∀ s, delete_event L event_id userId (.httpError s)
      = if s = 404 ∨ s = 410 then
          (delAlreadyGoneMsg doc.title, L.eraseP (gidPred event_id))
        else (delApiErrorMsg, L) := by
    intro s
    simp only [delete_event, hfind, if_neg howner]
  have hexn : ∀ m, delete_event L event_id userId (.otherExn m)
      = (delUnexpectedMsg, L) := by
    intro m
    simp only [delete_event, hfind, if_neg howner]
  have herase : (L.eraseP (gidPred event_id)).find? (gidPred event_id) = none :=
    List.find?_eq_none.mpr fun x hx => by
      simpa using eraseP_no_match_of_filter_le_one L huniq x hx
  refine ⟨?_, ?_, ?_⟩
  · intro s hs
    rw [hhttp, if_pos hs]
    exact ⟨rfl, herase⟩
  · intro s hs
    rw [hhttp, if_neg hs]
  · exact hexn

/-- Concrete instance of `delete_provider_outcomes`. -/
theorem delete_provider_outcomes_witness :
    delete_event [⟨1, some "g1", "u1", "Standup", 100, 160, "UTC", [], "confirmed", 0⟩]
        "g1" "u1" (.httpError 404)
      = (delAlreadyGoneMsg "Standup", []) ∧
    delete_event [⟨1, some "g1", "u1", "Standup", 100, 160, "UTC", [], "confirmed", 0⟩]
        "g1" "u1" (.httpError 500)
      = (delApiErrorMsg,
        [⟨1, some "g1", "u1", "Standup", 100, 160, "UTC", [], "confirmed", 0⟩]) ∧
    delete_event [⟨1, some "g1", "u1", "Standup", 100, 160, "UTC", [], "confirmed", 0⟩]
        "g1" "u1" (.otherExn "socket timeout")
      = (delUnexpectedMsg,
        [⟨1, some "g1", "u1", "Standup", 100, 160, "UTC", [], "confirmed", 0⟩]) := by
  have h := delete_provider_outcomes
    [⟨1, some "g1", "u1", "Standup", 100, 160, "UTC", [], "confirmed", 0⟩]
    "g1" "u1" ⟨1, some "g1", "u1", "Standup", 100, 160, "UTC", [], "confirmed", 0⟩
    rfl rfl (by decide)
  exact ⟨(h.1 404 (Or.inl rfl)).1, h.2.1 500 (by decide), h.2.2 "socket timeout"⟩

/-- C10: the conflict scans of booking and rescheduling run over the whole
`events` collection with a purely interval-based filter: any overlapping
record blocks the slot, with no condition on its `owner_user_id` or its
`status` — in particular a transient `pending` reservation of another user
blocks both a booking and a reschedule. -/
theorem conflict_scan_ignores_owner_and_status (L : Ledger) (summary : String)
    (ds de : DT) (o : Int) (userId userTzName : String) (nowTs buffer : Int)
    (insertDup : Bool) (sync : SyncResult) (event_id uid2 : String) (ds2 : DT)
    (new_summary : Option String) (updDup : Bool) (usync : UpdSync)
    (doc : EventRecord) (r : EventRecord) (hr : r ∈ L) :
    (specConflicts (toUtc o ds) (toUtc o de) buffer
        r.start_time_utc r.end_time_utc →
      confirm_and_book_event L summary (some ds) (some de) (some o) userId
        userTzName nowTs buffer insertDup sync = (slotUnavailableMsg, L)) ∧
    (L.find? (gidPred event_id) = some doc → doc.owner_user_id = uid2 →
      ¬ r.google_event_id = some event_id →
      specConflicts (toUtc o ds2)
        (toUtc o ds2 + (doc.end_time_utc - doc.start_time_utc)) buffer
        r.start_time_utc r.end_time_utc →
      update_event L event_id uid2 (some o) (some (some ds2)) new_summary buffer
        updDup usync = (.ret updSlotUnavailMsg, L)) := by
  constructor
  · intro hconf
    have hfound : L.find? (bookingConflictPred (toUtc o ds) (toUtc o de) buffer)
        ≠ none := by
      intro hnone
      exact absurd (((conflictPred_iff (toUtc o ds) (toUtc o de) buffer
          event_id r).1).mpr hconf)
        (by simpa using List.find?_eq_none.mp hnone r hr)
    simp only [confirm_and_book_event]
    cases hc : L.find? (bookingConflictPred (toUtc o ds) (toUtc o de) buffer) with
    | none => exact absurd hc hfound
    | some c => simp [hc]
  · intro hfind hown hgid hconf
    exact update_event_conflict_helper L event_id uid2 o ds2 new_summary buffer
      updDup usync doc hfind hown r hr hgid hconf

/-- Concrete instance of `conflict_scan_ignores_owner_and_status`: a
`pending` record with no external id, owned by a different user, blocks both
a booking and a reschedule of an event of another user. -/
theorem conflict_scan_ignores_owner_and_status_witness :
    confirm_and_book_event
        [⟨1, none, "other", "Hold", 100, 160, "UTC", [], "pending", 0⟩,
         ⟨2, some "g1", "u1", "Mine", 500, 560, "UTC", [], "confirmed", 0⟩]
        "New call" (some (.naive 120)) (some (.naive 180)) (some 0) "u1" "UTC" 0 15
        false (.success "gid" "link")
      = (slotUnavailableMsg,
        [⟨1, none, "other", "Hold", 100, 160, "UTC", [], "pending", 0⟩,
         ⟨2, some "g1", "u1", "Mine", 500, 560, "UTC", [], "confirmed", 0⟩]) ∧
    update_event
        [⟨1, none, "other", "Hold", 100, 160, "UTC", [], "pending", 0⟩,
         ⟨2, some "g1", "u1", "Mine", 500, 560, "UTC", [], "confirmed", 0⟩]
        "g1" "u1" (some 0) (some (some (.naive 90))) none 15 false (.success "ok")
      = (.ret updSlotUnavailMsg,
        [⟨1, none, "other", "Hold", 100, 160, "UTC", [], "pending", 0⟩,
         ⟨2, some "g1", "u1", "Mine", 500, 560, "UTC", [], "confirmed", 0⟩]) := by
  have h := conflict_scan_ignores_owner_and_status
    [⟨1, none, "other", "Hold", 100, 160, "UTC", [], "pending", 0⟩,
     ⟨2, some "g1", "u1", "Mine", 500, 560, "UTC", [], "confirmed", 0⟩]
    "New call" (.naive 120) (.naive 180) 0 "u1" "UTC" 0 15 false
    (.success "gid" "link") "g1" "u1" (.naive 90) none false (.success "ok")
    ⟨2, some "g1", "u1", "Mine", 500, 560, "UTC", [], "confirmed", 0⟩
    ⟨1, none, "other", "Hold", 100, 160, "UTC", [], "pending", 0⟩
    (by decide)
  exact ⟨h.1 (by decide), h.2 rfl rfl (by decide) (by decide)⟩

/-- The `events` collection of the C7 failing input: one confirmed event with
external id g1 owned by u1. -/
def ledgerC7 : Ledger :=
  [⟨1, some "g1", "u1", "Standup", 1000, 1060, "UTC", [], "confirmed", 0⟩]

/-- C7 (failing input): a `new_start_time` string that
`datetime.fromisoformat` cannot parse (oracle value `some none`) makes
`update_event` raise `ValueError` past the tool boundary — lines 273-283 are
outside any `try` — instead of returning a typed failure value as every
other tool does. -/
theorem update_event_raises_on_bad_time :
    update_event ledgerC7 "g1" "u1" (some 0) (some none) none 15 false
        (.success "ok")
      = (.exn "ValueError", ledgerC7) ∧
    update_event ledgerC7 "g1" "u1" none (some (some (.naive 100))) none 15 false
        (.success "ok")
      = (.exn "UnknownTimeZoneError", ledgerC7) := by
  constructor <;> rfl

/-- The local calendar date (as a day index) of instant `t` in a zone of
fixed offset `o` minutes: `.date()` of the converted datetime. -/
def localDate (o t : Int) : Int :=
  Int.fdiv (t + o) 1440

/-- Line 358: `search_start_utc = user_req_date_aware - 1 day`, where
`reqMid` is the instant of local midnight of the requested date. -/
def searchWindowStart (reqMid : Int) : Int := reqMid - 1440

/-- Line 359: `search_end_utc = user_req_date_aware + 2 days`. -/
def searchWindowEnd (reqMid : Int) : Int := reqMid + 2880

/-- Line 361: the Mongo fetch of `find_available_slots`.  The filter
constrains `start_time_utc` only: `$gte search_start_utc, $lt
search_end_utc`. -/
def fas_fetch (L : Ledger) (reqMid : Int) : List EventRecord :=
  L.filter fun e =>
    decide (searchWindowStart reqMid ≤ e.start_time_utc) &&
      decide (e.start_time_utc < searchWindowEnd reqMid)

/-- Lines 364-370: each fetched record becomes a buffer-expanded busy
block. -/
def fas_busy_blocks (L : Ledger) (reqMid buf : Int) : List BusyBlock :=
  (fas_fetch L reqMid).map (busyBlockOf buf)

/-- The while loop of lines 378-386 as the list of generated slot starts:
`first, first + gran, ...` while `slot + dur ≤ dayEnd` (the settings keep
`gran > 0`; the closed form below agrees with the loop for positive
`gran`, see `mem_slotStarts`). -/
def slotStarts (first dayEnd dur gran : Int) : List Int :=
  if first + dur ≤ dayEnd then
    (List.range (((dayEnd - dur - first).fdiv gran).toNat + 1)).map
      fun k : Nat => first + (k : Int) * gran
  else []

/-- Lines 374-376 for one `day_offset`: convert the user-midnight instant to
the company zone, take that company-local day at the configured working
start/end hours. -/
def fas_day_slots (reqMid : Int) (cfg : Settings) (dur : Int) (off : Int) : List Int :=
  let wall := reqMid + off * 1440 + cfg.COMPANY_TZ_OFFSET
  let base := (Int.fdiv wall 1440) * 1440
  let first := base + cfg.COMPANY_WORKING_START_HOUR * 60 - cfg.COMPANY_TZ_OFFSET
  let dayEnd := base + cfg.COMPANY_WORKING_END_HOUR * 60 - cfg.COMPANY_TZ_OFFSET
  slotStarts first dayEnd dur cfg.SLOT_CHECK_DURATION_MINUTES

/-- Line 373: the two-day scan, `day_offset in range(2)`. -/
def fas_candidates (reqMid : Int) (cfg : Settings) (dur : Int) : List Int :=
  fas_day_slots reqMid cfg dur 0 ++ fas_day_slots reqMid cfg dur 1

/-- Lines 382-384: a candidate is appended iff it overlaps no busy block,
its start is after the current moment, and its user-local date is the
requested one. -/
def fas_accept (blocks : List BusyBlock) (now uOff reqDay dur : Int) (t : Int) : Bool :=
  !(blocks.any fun b => slotBusyOverlap t (t + dur) b) &&
    decide (t > now) && (localDate uOff t == reqDay)

/-- Return value of the tool: a list of slots (instants standing for their
user-local ISO strings) or an error string. -/
inductive FasResult where
  | slots (xs : List Int)
  | error (msg : String)
deriving Repr, DecidableEq

def badDateMsg : String :=
  "Error: The date provided was not in the required YYYY-MM-DD format."

def pastDateMsg : String :=
  "The date you selected is in the past."

def fasUnexpectedMsg : String :=
  "An unexpected error occurred in find_available_slots."

/-- Line 387: `sorted(list(set(...)))`. -/
def dedupSort (xs : List Int) : List Int :=
  xs.dedup.mergeSort fun a b => decide (a ≤ b)

/-- Embedding of `find_available_slots` (lines 332-389).  `dateP` is the outcome of
`strptime(date, YYYY-MM-DD)` as a day index, `userTzP` the `pytz.timezone`
outcome for `user_timezone` (its failure is caught by the enclosing `try`),
`now` the current instant, `dur` the slot duration in minutes. -/
def find_available_slots (L : Ledger) (dateP : Option Int) (userTzP : Option Int)
    (cfg : Settings) (now dur : Int) : FasResult :=
  match dateP with
  | none => .error badDateMsg
  | some reqDay =>
    match userTzP with
    | none => .error fasUnexpectedMsg
    | some uOff =>
      let reqMid := reqDay * 1440 - uOff
      if reqDay < localDate uOff now then .error pastDateMsg
      else
        .slots (dedupSort ((fas_candidates reqMid cfg dur).filter
          (fas_accept (fas_busy_blocks L reqMid cfg.MEETING_BUFFER_MINUTES)
            now uOff reqDay dur)))

theorem mem_dedupSort (t : Int) (xs : List Int) : t ∈ dedupSort xs ↔ t ∈ xs := by
  unfold dedupSort
  rw [List.mem_mergeSort]
  exact List.mem_dedup

theorem mem_slotStarts (first dayEnd dur gran t : Int) (hg : 0 < gran) :
    t ∈ slotStarts first dayEnd dur gran ↔
      ∃ k : ℕ, t = first + k * gran ∧ first + k * gran + dur ≤ dayEnd := by
  unfold slotStarts
  split
  · rename_i hfirst
    have hD : (0 : Int) ≤ dayEnd - dur - first := by omega
    have hE : (dayEnd - dur - first).fdiv gran = (dayEnd - dur - first) / gran :=
      Int.fdiv_eq_ediv _ (le_of_lt hg)
    have hnn : 0 ≤ (dayEnd - dur - first) / gran := Int.ediv_nonneg hD (le_of_lt hg)
    simp only [List.mem_map, List.mem_range]
    constructor
    · rintro ⟨k, hk, rfl⟩
      refine ⟨k, rfl, ?_⟩
      rw [hE] at hk
      have hk2 : (k : Int) ≤ (dayEnd - dur - first) / gran := by omega
      have hkg : (k : Int) * gran ≤ dayEnd - dur - first :=
        (Int.le_ediv_iff_mul_le hg).mp hk2
      omega
    · rintro ⟨k, rfl, hk⟩
      refine ⟨k, ?_, rfl⟩
      have hkg : (k : Int) * gran ≤ dayEnd - dur - first := by omega
      have hk2 : (k : Int) ≤ (dayEnd - dur - first) / gran :=
        (Int.le_ediv_iff_mul_le hg).mpr hkg
      rw [hE]
      omega
  · rename_i hfirst
    simp only [List.not_mem_nil, false_iff, not_exists, not_and]
    intro k hk
    have h0 : (0 : Int) ≤ (k : Int) * gran :=
      mul_nonneg (Int.natCast_nonneg k) (le_of_lt hg)
    omega

theorem fas_accept_iff (blocks : List BusyBlock) (now uOff reqDay dur t : Int) :
    fas_accept blocks now uOff reqDay dur t = true ↔
      ((∀ b ∈ blocks, ¬ slotBusyOverlap t (t + dur) b = true) ∧
        now < t ∧ localDate uOff t = reqDay) := by
  simp [fas_accept, Bool.and_eq_true, Bool.not_eq_true', List.any_eq_false,
    decide_eq_true_iff, beq_iff_eq, and_assoc]

/-- C5: slot acceptance.  Whenever `find_available_slots` returns a slot
list, a generated candidate slot is a member of the result iff (a) it
overlaps no buffer-expanded busy block, (b) its start is strictly after the
current moment, and (c) its local date in the user timezone equals the
requested date. -/
theorem slot_acceptance (L : Ledger) (reqDay uOff : Int) (cfg : Settings)
    (now dur : Int) (R : List Int) (t : Int)
    (hres : find_available_slots L (some reqDay) (some uOff) cfg now dur = .slots R)
    (ht : t ∈ fas_candidates (reqDay * 1440 - uOff) cfg dur) :
    t ∈ R ↔
      ((∀ b ∈ fas_busy_blocks L (reqDay * 1440 - uOff) cfg.MEETING_BUFFER_MINUTES,
          ¬ slotBusyOverlap t (t + dur) b = true) ∧
        now < t ∧ localDate uOff t = reqDay) := by
  simp only [find_available_slots] at hres
  split at hres
  · exact absurd hres (by simp)
  · injection hres with hres
    subst hres
    rw [mem_dedupSort, List.mem_filter]
    rw [fas_accept_iff]
    simp [ht]

/-- Settings of the concrete availability scenario: 15-minute buffer,
company timezone at UTC offset 0, working hours 9-17, 15-minute
granularity. -/
def cfgC5 : Settings := ⟨15, 0, 9, 17, 15⟩

/-- One busy event 10:00-11:00 UTC on day 20000. -/
def ledgerC5 : Ledger :=
  [⟨1, some "g1", "u1", "Standup", 28800600, 28800660, "UTC", [], "confirmed", 0⟩]

/-- The slot list the concrete availability scenario returns. -/
def fasSlotsC5 : List Int :=
  dedupSort ((fas_candidates (20000 * 1440 - 0) cfgC5 30).filter
    (fas_accept (fas_busy_blocks ledgerC5 (20000 * 1440 - 0)
      cfgC5.MEETING_BUFFER_MINUTES) 28800000 0 20000 30))

/-- Concrete instance of `slot_acceptance` at the 09:00 candidate. -/
theorem slot_acceptance_witness :
    (28800540 : Int) ∈ fasSlotsC5 ↔
      ((∀ b ∈ fas_busy_blocks ledgerC5 (20000 * 1440 - 0)
            cfgC5.MEETING_BUFFER_MINUTES,
          ¬ slotBusyOverlap 28800540 (28800540 + 30) b = true) ∧
        (28800000 : Int) < 28800540 ∧ localDate 0 28800540 = 20000) :=
  slot_acceptance ledgerC5 20000 0 cfgC5 28800000 30 fasSlotsC5 28800540 rfl
    (by decide)

/-- The record of the C8 counterexample: it starts 60 minutes before the
fetch window opens and ends 100 minutes after it opened. -/
def eC8 : EventRecord :=
  ⟨1, some "g1", "u1", "Spillover", 28798500, 28798660, "UTC", [], "confirmed", 0⟩

def ledgerC8 : Ledger := [eC8]

/-- User-midnight instant of the requested date in the C8 counterexample. -/
def reqMidC8 : Int := 28800000

/-- C8 (counterexample): the fetch of `find_available_slots` filters on
`start_time_utc` only, so a record whose interval overlaps the
one-day-before/two-days-after window but starts before it is not fetched and
yields no busy block — refuting the claim that no event overlapping the
window is omitted from conflict filtering. -/
theorem fetch_window_misses_overlapping_event :
    eC8 ∈ ledgerC8 ∧
    eC8.start_time_utc < searchWindowEnd reqMidC8 ∧
    eC8.end_time_utc > searchWindowStart reqMidC8 ∧
    fas_fetch ledgerC8 reqMidC8 = [] ∧
    fas_busy_blocks ledgerC8 reqMidC8 15 = [] := by
  decide

/-- C8 (amended): the fetch of `find_available_slots` returns exactly the
records whose START time lies in the window from one day before to two days
after the requested local midnight, and each fetched record is converted
into a buffer-expanded busy block; records that start before the window are
omitted even when their interval extends into it. -/
theorem fetch_window_start_filter (L : Ledger) (reqMid buf : Int) (e : EventRecord) :
    (e ∈ fas_fetch L reqMid ↔
      (e ∈ L ∧ searchWindowStart reqMid ≤ e.start_time_utc ∧
        e.start_time_utc < searchWindowEnd reqMid)) ∧
    fas_busy_blocks L reqMid buf = (fas_fetch L reqMid).map (busyBlockOf buf) := by
  refine ⟨?_, rfl⟩
  simp [fas_fetch, List.mem_filter, and_assoc]

/-- The spec invariant distinguishing pending from confirmed records: a
record has `status = pending` iff its `google_event_id` is still null. -/
def PendingIffNoExt (L : Ledger) : Prop :=
  ∀ r ∈ L, (r.status = "pending" ↔ r.google_event_id = none)

instance (L : Ledger) : Decidable (PendingIffNoExt L) := by
  unfold PendingIffNoExt; infer_instance

theorem pendingIff_updateFirst (pred : EventRecord → Bool) (p : SetPayload)
    (hp1 : p.google_event_id = none) (hp2 : p.status = none) :
    ∀ L : Ledger, PendingIffNoExt L → PendingIffNoExt (updateFirst pred p L) := by
  intro L
  induction L with
  | nil => intro h; exact h
  | cons r rest ih =>
    intro h s hs
    unfold updateFirst at hs
    split at hs
    · rcases List.mem_cons.mp hs with hs | hs
      · subst hs
        have : (applySet p r).status = r.status := by simp [applySet, hp2]
        rw [this, applySet_keeps_gid p r hp1]
        exact h r (by simp)
      · exact h s (by simp [hs])
    · rcases List.mem_cons.mp hs with hs | hs
      · subst hs
        exact h s (by simp)
      · exact ih (fun x hx => h x (by simp [hx])) s hs

theorem pendingIff_finalize (pred : EventRecord → Bool) (gid : String) :
    ∀ L : Ledger, PendingIffNoExt L →
      PendingIffNoExt
        (updateFirst pred ⟨none, none, none, some (some gid), some "confirmed"⟩ L) := by
  intro L
  induction L with
  | nil => intro h; exact h
  | cons r rest ih =>
    intro h s hs
    unfold updateFirst at hs
    split at hs
    · rcases List.mem_cons.mp hs with hs | hs
      · subst hs
        simp [applySet]
      · exact h s (by simp [hs])
    · rcases List.mem_cons.mp hs with hs | hs
      · subst hs
        exact h s (by simp)
      · exact ih (fun x hx => h x (by simp [hx])) s hs

theorem pendingIff_eraseP (q : EventRecord → Bool) (L : Ledger)
    (h : PendingIffNoExt L) : PendingIffNoExt (L.eraseP q) :=
  fun r hr => h r ((L.eraseP_sublist).subset hr)

theorem pendingIff_append_pending (L : Ledger) (h : PendingIffNoExt L)
    (r : EventRecord) (hst : r.status = "pending") (hgid : r.google_event_id = none) :
    PendingIffNoExt (L ++ [r]) := by
  intro s hs
  rcases List.mem_append.mp hs with hs | hs
  · exact h s hs
  · have : s = r := by simpa using hs
    subst this
    simp [hst, hgid]

theorem map_statusGid_updateFirst (pred : EventRecord → Bool) (p : SetPayload)
    (hp1 : p.google_event_id = none) (hp2 : p.status = none) :
    ∀ L : Ledger,
      (updateFirst pred p L).map (fun r => (r.status, r.google_event_id))
        = L.map (fun r => (r.status, r.google_event_id)) := by
  intro L
  induction L with
  | nil => rfl
  | cons r rest ih =>
    unfold updateFirst
    split
    · simp only [List.map_cons]
      congr 1
      simp [applySet, hp1, hp2]
    · simp only [List.map_cons, ih]

theorem pendingIff_of_map_eq (L L' : Ledger)
    (h : L'.map (fun r => (r.status, r.google_event_id))
      = L.map (fun r => (r.status, r.google_event_id)))
    (hL : PendingIffNoExt L) : PendingIffNoExt L' := by
  intro r hr
  have hmem : (r.status, r.google_event_id)
      ∈ L'.map (fun r => (r.status, r.google_event_id)) :=
    List.mem_map_of_mem _ hr
  rw [h] at hmem
  rcases List.mem_map.mp hmem with ⟨s, hs, hpair⟩
  rcases Prod.mk.injEq .. ▸ hpair with ⟨h1, h2⟩
  rw [← h1, ← h2]
  exact hL s hs

theorem pendingIff_internal_create (L : Ledger) (summary : String)
    (startP endP : Option DT) (userTzP : Option Int) (userId userTzName : String)
    (nowTs : Int) (insertDup : Bool) (sync : SyncResult)
    (hL : PendingIffNoExt L) :
    PendingIffNoExt (internal_create_event L summary startP endP userTzP userId
      userTzName nowTs insertDup sync).2 := by
  unfold internal_create_event
  cases userTzP with
  | none => exact hL
  | some o =>
    cases startP with
    | none => exact hL
    | some ds =>
      cases endP with
      | none => exact hL
      | some de =>
        simp only
        split
        · exact hL
        · have hpend : PendingIffNoExt (L ++ [⟨freshId L, none, userId, summary,
              toUtc o ds, toUtc o de, userTzName, [], "pending", nowTs⟩]) :=
            pendingIff_append_pending L hL _ rfl rfl
          cases sync with
          | success gid link => exact pendingIff_finalize _ gid _ hpend
          | failure reason => exact pendingIff_eraseP _ _ hpend

theorem update_event_snd_map (L : Ledger) (event_id userId : String)
    (userTzP : Option Int) (new_start_p : Option (Option DT))
    (new_summary : Option String) (buffer : Int) (updDup : Bool) (sync : UpdSync) :
    ((update_event L event_id userId userTzP new_start_p new_summary buffer updDup
        sync).2).map (fun r => (r.status, r.google_event_id))
      = L.map (fun r => (r.status, r.google_event_id)) := by
  have hcommit : ∀ (doc : EventRecord) (p : SetPayload), p.google_event_id = none →
      p.status = none →
      ((update_event_commit L event_id doc p updDup sync).2).map
        (fun r => (r.status, r.google_event_id))
        = L.map (fun r => (r.status, r.google_event_id)) := by
    intro doc p hp1 hp2
    unfold update_event_commit
    split
    · rfl
    · cases sync with
      | success echoed =>
        exact map_statusGid_updateFirst _ p hp1 hp2 L
      | failure reason =>
        simp only
        rw [map_statusGid_updateFirst _ _ rfl rfl,
          map_statusGid_updateFirst _ p hp1 hp2 L]
  unfold update_event
  cases hfind : L.find? (gidPred event_id) with
  | none => rfl
  | some doc =>
    simp only
    split
    · rfl
    · split
      · rfl
      · cases new_start_p with
        | none => exact hcommit doc _ rfl rfl
        | some parsed =>
          cases userTzP with
          | none => rfl
          | some o =>
            cases parsed with
            | none => rfl
            | some ds =>
              simp only
              cases hconf : L.find? (updateConflictPred event_id (toUtc o ds)
                  (toUtc o ds + (doc.end_time_utc - doc.start_time_utc)) buffer) with
              | some c => rfl
              | none => exact hcommit doc _ rfl rfl

theorem delete_event_snd_pendingIff (L : Ledger) (event_id userId : String)
    (provider : DelProvider) (hL : PendingIffNoExt L) :
    PendingIffNoExt (delete_event L event_id userId provider).2 := by
  unfold delete_event
  cases hfind : L.find? (gidPred event_id) with
  | none => exact hL
  | some doc =>
    simp only
    split
    · exact hL
    · cases provider with
      | ok => exact pendingIff_eraseP _ _ hL
      | httpError s =>
        show PendingIffNoExt (if s = 404 ∨ s = 410 then
          (delAlreadyGoneMsg doc.title, L.eraseP (gidPred event_id))
          else (delApiErrorMsg, L)).2
        by_cases hs : s = 404 ∨ s = 410
        · rw [if_pos hs]
          exact pendingIff_eraseP _ _ hL
        · rw [if_neg hs]
          exact hL
      | otherExn m => exact hL

/-- C9: every operation preserves the invariant that a record is `pending`
iff its `google_event_id` is null.  The create flow inserts records as
`pending` with a null external id and only its finalize step sets
`confirmed` together with a non-null external id; the update flow never
touches `status` or `google_event_id` at all (its status/external-id column
is literally unchanged), and the delete flow only removes records. -/
theorem pending_iff_no_external_invariant (L : Ledger) (summary : String)
    (startP endP : Option DT) (userTzP : Option Int) (userId userTzName : String)
    (nowTs buffer : Int) (insertDup : Bool) (sync : SyncResult)
    (event_id uid2 : String) (userTzP2 : Option Int)
    (new_start_p : Option (Option DT)) (new_summary : Option String)
    (updDup : Bool) (usync : UpdSync) (event_id2 uid3 : String)
    (provider : DelProvider) (hL : PendingIffNoExt L) :
    PendingIffNoExt (internal_create_event L summary startP endP userTzP userId
      userTzName nowTs insertDup sync).2 ∧
    PendingIffNoExt (confirm_and_book_event L summary startP endP userTzP userId
      userTzName nowTs buffer insertDup sync).2 ∧
    ((update_event L event_id uid2 userTzP2 new_start_p new_summary buffer updDup
        usync).2).map (fun r => (r.status, r.google_event_id))
      = L.map (fun r => (r.status, r.google_event_id)) ∧
    PendingIffNoExt (update_event L event_id uid2 userTzP2 new_start_p new_summary
      buffer updDup usync).2 ∧
    PendingIffNoExt (delete_event L event_id2 uid3 provider).2 := by
  have hmap := update_event_snd_map L event_id uid2 userTzP2 new_start_p new_summary
    buffer updDup usync
  refine ⟨pendingIff_internal_create L summary startP endP userTzP userId userTzName
    nowTs insertDup sync hL, ?_, hmap,
    pendingIff_of_map_eq L _ hmap hL,
    delete_event_snd_pendingIff L event_id2 uid3 provider hL⟩
  unfold confirm_and_book_event
  cases userTzP with
  | none => exact hL
  | some o =>
    cases startP with
    | none => exact hL
    | some ds =>
      cases endP with
      | none => exact hL
      | some de =>
        simp only
        cases hc : L.find? (bookingConflictPred (toUtc o ds) (toUtc o de) buffer) with
        | some c => exact hL
        | none =>
          cases hint : internal_create_event L summary (some ds) (some de) (some o)
              userId userTzName nowTs insertDup sync with
          | mk res L2 =>
            have := pendingIff_internal_create L summary (some ds) (some de) (some o)
              userId userTzName nowTs insertDup sync hL
            rw [hint] at this
            cases res with
            | ret s => exact this
            | exn e => exact this

/-- Concrete instance of `pending_iff_no_external_invariant`. -/
theorem pending_iff_no_external_invariant_witness :
    PendingIffNoExt (internal_create_event ledgerC5 "Call" (some (.naive 28800900))
      (some (.naive 28800930)) (some 0) "u1" "UTC" 0 false
      (.success "g9" "link")).2 ∧
    PendingIffNoExt (confirm_and_book_event ledgerC5 "Call" (some (.naive 28800900))
      (some (.naive 28800930)) (some 0) "u1" "UTC" 0 15 false
      (.success "g9" "link")).2 ∧
    ((update_event ledgerC5 "g1" "u1" (some 0) (some (some (.naive 28800700))) none
        15 false (.failure "boom")).2).map (fun r => (r.status, r.google_event_id))
      = ledgerC5.map (fun r => (r.status, r.google_event_id)) ∧
    PendingIffNoExt (update_event ledgerC5 "g1" "u1" (some 0)
      (some (some (.naive 28800700))) none 15 false (.failure "boom")).2 ∧
    PendingIffNoExt (delete_event ledgerC5 "g1" "u1" (.httpError 404)).2 :=
  pending_iff_no_external_invariant ledgerC5 "Call" (some (.naive 28800900))
    (some (.naive 28800930)) (some 0) "u1" "UTC" 0 15 false (.success "g9" "link")
    "g1" "u1" (some 0) (some (some (.naive 28800700))) none false (.failure "boom")
    "g1" "u1" (.httpError 404) (by decide)

end BookingAgent
